import Mathlib

/-!
Verification development for the light-curve transit synthesis repository.

The repository synthesizes 1-D light curves with periodic transit dips.
We embed the two placement policies:
  * Policy A: LightCurveTheoretical / LightCurveExoplanet .plot_transit
    in src/lcEnhance/LCE.py (periodic, centered-per-period placement with
    ingress/egress ramps and a final circular shift), and
  * Policy B: LightCurveMultiple.plot_transit in src/lightcurveenhanced.py
    and LightCurveTheoretical.plot_transit in src/lcEnhance/lightcurveenhanced.py
    (single fixed-location, wraparound-aware placement),
together with the parameter derivation of LightCurveExoplanet.__init__ and
the Exoplanet / Star entity constructors.

Numpy arrays of floats are modelled as a length together with a valuation
function on sample indices, with rational sample values; Python float
truncation int(x) is modelled exactly (floor for nonnegative, ceiling for
negative); the Gaussian draws of np.random are modelled by oracle
functions supplying the drawn deviations.
-/

/-- A numpy 1-D array: a length and a valuation on indices.  Only indices
below len are meaningful. -/
structure NpArr where
  len : ℕ
  val : ℕ → ℚ

/-- Python int() applied to a float value: truncation toward zero. -/
def pyInt (q : ℚ) : ℤ :=
  if 0 ≤ q then ⌊q⌋ else ⌈q⌉

/-- An array filled with a constant value (models np.ones and friends). -/
def constArr (n : ℕ) (q : ℚ) : NpArr :=
  { len := n, val := fun _ => q }

/-- Numpy slice subtraction a[lo:hi] -= d with Python slice semantics:
negative endpoints count from the end, and endpoints are clamped to
[0, len]. -/
def sliceSub (a : NpArr) (lo hi : ℤ) (d : ℚ) : NpArr :=
  let n : ℤ := a.len
  let lo' : ℤ := if lo < 0 then max 0 (n + lo) else min lo n
  let hi' : ℤ := if hi < 0 then max 0 (n + hi) else min hi n
  { a with val := fun t => if lo' ≤ (t : ℤ) ∧ (t : ℤ) < hi' then a.val t - d else a.val t }

/-- Python index normalization: a negative index counts from the end. -/
def pyIdx (len : ℕ) (j : ℤ) : ℤ :=
  if j < 0 then (len : ℤ) + j else j

/-- Python scalar element assignment a[j] = v: a negative index counts
from the end; an index that is still out of range raises in Python and is
modelled as leaving the array unchanged (theorems using pySet carry
hypotheses keeping the index in range). -/
def pySet (a : NpArr) (j : ℤ) (v : ℚ) : NpArr :=
  if 0 ≤ pyIdx a.len j ∧ pyIdx a.len j < (a.len : ℤ) then
    { a with val := fun t => if (t : ℤ) = pyIdx a.len j then v else a.val t }
  else a

/-- A loop for k in range(m): a[f k] = g k, executed in ascending order of
k (the write at k = m-1 happens last). -/
def applyRamp (a : NpArr) (f : ℕ → ℤ) (g : ℕ → ℚ) : ℕ → NpArr
  | 0 => a
  | m + 1 => pySet (applyRamp a f g m) (f m) (g m)

/-- Ingress ramp of LCE.py lines 85-86:
for i in np.arange(lb - slopelength, lb): flux[i] = 1 - (i-(lb-sl))/sl * depth.
The loop variable is i = lb - sl + k for k = 0 .. sl-1 (empty when sl ≤ 0,
matching np.arange). -/
def rampDown (a : NpArr) (lb : ℤ) (sl : ℤ) (d : ℚ) : NpArr :=
  applyRamp a (fun k => lb - sl + k) (fun k => 1 - (k : ℚ) / (sl : ℚ) * d) sl.toNat

/-- Egress ramp of LCE.py lines 87-88:
for i in np.arange(ub, slopelength + ub): flux[i] = 1 + (i-(ub+sl))/sl * depth.
The loop variable is i = ub + k for k = 0 .. sl-1. -/
def rampUp (a : NpArr) (ub : ℤ) (sl : ℤ) (d : ℚ) : NpArr :=
  applyRamp a (fun k => ub + k) (fun k => 1 + ((k : ℚ) - (sl : ℚ)) / (sl : ℚ) * d) sl.toNat

/-- np.roll(a, m): result index t holds a[(t - m) mod len]. -/
def npRoll (a : NpArr) (m : ℕ) : NpArr :=
  { a with val := fun t =>
      if t < a.len then a.val ((t + a.len - m % a.len) % a.len) else a.val t }

/-- State of LightCurveTheoretical / LightCurveExoplanet (src/lcEnhance/LCE.py).
Gaussian draws are supplied externally by oracles. -/
structure LCTState where
  ticksinper : ℕ
  length : ℕ
  depth : ℚ
  duration : ℚ
  noise : ℚ
  location : ℕ
  fluxOG : NpArr
  flux : NpArr
  per : ℕ
  numper : ℕ
  slopelength : ℤ
  lb : ℤ
  ub : ℤ

/-- Lower bound of LCE.py line 77:
int(ticksinper/2 * (1 + 2*per) - duration/2). -/
def lbA (s : LCTState) : ℤ :=
  pyInt ((s.ticksinper : ℚ) / 2 * (1 + 2 * (s.per : ℚ)) - s.duration / 2)

/-- Upper bound of LCE.py line 78:
int(ticksinper/2 * (1 + 2*per) + duration/2). -/
def ubA (s : LCTState) : ℤ :=
  pyInt ((s.ticksinper : ℚ) / 2 * (1 + 2 * (s.per : ℚ)) + s.duration / 2)

/-- One iteration of the while loop of LCE.py plot_transit (lines 73-91):
compute the bounds, subtract depth on the window slice, write both ramps,
advance per, and jitter depth (np.random.normal(loc=depth, scale=1e-4)
drawn value = depth + eps, with eps the supplied deviation). -/
def stepA (s : LCTState) (eps : ℚ) : LCTState :=
  let lower : ℤ := lbA s
  let upper : ℤ := ubA s
  let fx1 := sliceSub s.flux lower upper s.depth
  let fx2 := rampDown fx1 lower s.slopelength s.depth
  let fx3 := rampUp fx2 upper s.slopelength s.depth
  { s with flux := fx3, lb := lower, ub := upper,
           per := s.per + 1, depth := s.depth + eps }

/-- LCE.py plot_transit (lines 71-100, plotting calls omitted as out of
scope): reset the working signal to fluxOG - 1, reset per to 0, run the
while loop (per goes 0 .. numper-1, so exactly numper iterations), then
circularly shift by location.  eps k is the depth jitter drawn at the end
of iteration k. -/
def plot_transitA (s : LCTState) (eps : ℕ → ℚ) : LCTState :=
  let s0 : LCTState :=
    { s with flux := { len := s.fluxOG.len, val := fun i => s.fluxOG.val i - 1 },
             per := 0 }
  let s1 := (List.range s.numper).foldl (fun st k => stepA st (eps k)) s0
  { s1 with flux := npRoll s1.flux s.location }

/-- n successive full rendering passes of plot_transit; E j is the jitter
oracle of pass j. -/
def iterA (E : ℕ → ℕ → ℚ) : ℕ → LCTState → LCTState
  | 0, s => s
  | n + 1, s => plot_transitA (iterA E n s) (E n)

/-- Baseline of LCE.py line 52 / 193:
np.ones(length) + np.random.normal(0, noise, length) + 1, with eps the
drawn deviations (eps is identically 0 when noise = 0). -/
def fluxOG_LCT (length : ℕ) (eps : ℕ → ℚ) : NpArr :=
  { len := length, val := fun i => 1 + eps i + 1 }

/-- Baseline of src/lightcurveenhanced.py line 33 and
src/lcEnhance/lightcurveenhanced.py line 47:
np.ones(length) + np.random.normal(0, noise, length). -/
def flux_LCM (length : ℕ) (eps : ℕ → ℚ) : NpArr :=
  { len := length, val := fun i => 1 + eps i }

/-- LightCurveTheoretical.__init__ of src/lcEnhance/LCE.py (lines 36-56).
randDepth models np.random.uniform(.01,.20), randDur models
np.random.randint(.02*ticksinper, .15*ticksinper), randLoc models
np.random.randint(0, ticksinper), eps the baseline noise draws.
self.flux, self.lb, self.ub are first assigned in plot_transit; their
initial placeholders below are overwritten there before being read. -/
def LCT_init (ticksinper : ℕ) (depth duration noise : ℚ) (numper : ℕ)
    (randDepth : ℚ) (randDur : ℤ) (randLoc : ℕ) (eps : ℕ → ℚ) : LCTState :=
  let depthVal : ℚ := if depth = 0 then randDepth else depth
  let durVal : ℚ := if duration = 0 then (randDur : ℚ) else duration * ticksinper
  { ticksinper := ticksinper
    length := ticksinper * numper
    depth := depthVal
    duration := durVal
    noise := noise
    location := randLoc
    fluxOG := fluxOG_LCT (ticksinper * numper) eps
    flux := constArr 0 0
    per := 0
    numper := numper
    slopelength := pyInt (durVal / 10)
    lb := 0
    ub := 0 }

/-- State of LightCurveMultiple (src/lightcurveenhanced.py) and of
LightCurveTheoretical (src/lcEnhance/lightcurveenhanced.py).
overflow_flag is an Option since the Python attribute may never have been
assigned (none models an unset attribute). -/
structure LCMState where
  ticksinper : ℕ
  length : ℕ
  depth : ℚ
  duration : ℚ
  noise : ℚ
  location : ℤ
  flux : NpArr
  per : ℕ
  numper : ℕ
  lb : ℤ
  ub : ℤ
  overflow_flag : Option Bool

/-- Lower bound of src/lightcurveenhanced.py line 45:
int(location - duration/2). -/
def lbB (s : LCMState) : ℤ :=
  pyInt ((s.location : ℚ) - s.duration / 2)

/-- Upper bound of src/lightcurveenhanced.py line 46:
int(location + duration/2). -/
def ubB (s : LCMState) : ℤ :=
  pyInt ((s.location : ℚ) + s.duration / 2)

/-- LightCurveMultiple.plot_transit of src/lightcurveenhanced.py
(lines 41-66).  In the lowerbound < 0 branch, line 54 binds a LOCAL
variable overflow_flag (not self.overflow_flag), so the object's stored
flag is left untouched there.  The trailing self.plot call only draws and
increments self.per (line 119); drawing is out of scope. -/
def plot_transitB (s : LCMState) : LCMState :=
  let lower : ℤ := lbB s
  let upper : ℤ := ubB s
  if lower < 0 then
    let ub : ℤ := (s.length : ℤ) + lower
    let lb : ℤ := upper
    let fx := sliceSub (sliceSub s.flux 0 lb s.depth) ub (s.length : ℤ) s.depth
    { s with ub := ub, lb := lb, flux := fx, per := s.per + 1 }
  else if (s.length : ℤ) < upper then
    let lb : ℤ := upper - (s.length : ℤ)
    let ub : ℤ := lower
    let fx := sliceSub (sliceSub s.flux 0 lb s.depth) ub (s.length : ℤ) s.depth
    { s with lb := lb, ub := ub, flux := fx,
             overflow_flag := some true, per := s.per + 1 }
  else
    { s with lb := lower, ub := upper,
             flux := sliceSub s.flux lower upper s.depth,
             overflow_flag := some false, per := s.per + 1 }

/-- LightCurveTheoretical.plot_transit of src/lcEnhance/lightcurveenhanced.py
(lines 58-87): identical to plot_transitB except that line 75 correctly
assigns self.overflow_flag = True in the lowerbound < 0 branch. -/
def plot_transitB2 (s : LCMState) : LCMState :=
  let lower : ℤ := lbB s
  let upper : ℤ := ubB s
  if lower < 0 then
    let ub : ℤ := (s.length : ℤ) + lower
    let lb : ℤ := upper
    let fx := sliceSub (sliceSub s.flux 0 lb s.depth) ub (s.length : ℤ) s.depth
    { s with ub := ub, lb := lb, flux := fx,
             overflow_flag := some true, per := s.per + 1 }
  else if (s.length : ℤ) < upper then
    let lb : ℤ := upper - (s.length : ℤ)
    let ub : ℤ := lower
    let fx := sliceSub (sliceSub s.flux 0 lb s.depth) ub (s.length : ℤ) s.depth
    { s with lb := lb, ub := ub, flux := fx,
             overflow_flag := some true, per := s.per + 1 }
  else
    { s with lb := lower, ub := upper,
             flux := sliceSub s.flux lower upper s.depth,
             overflow_flag := some false, per := s.per + 1 }

/-- Python exceptions raised by the entity constructors. -/
inductive PyExc where
  | attributeError
  | valueError
deriving DecidableEq

/-- The Exoplanet entity (src/lcEnhance/LCE.py lines 270-302): radius and
semi-major axis in meters; none models a Python attribute that was never
assigned. -/
structure Exoplanet where
  radius : Option ℚ
  a : Option ℚ
deriving DecidableEq

/-- Nominal astropy constants, in meters. -/
def R_jup_m : ℚ := 71492000

def R_earth_m : ℚ := 6378100

def R_sun_m : ℚ := 695700000

def au_m : ℚ := 149597870700

/-- Exoplanet.__init__ of src/lcEnhance/LCE.py (lines 286-301).
In the rad_unit == "m" branch, line 293 reads
    self. radius == rad * u.m
which is an equality COMPARISON, not an assignment: evaluating it reads
the attribute self.radius, which has not been assigned at that point, so
Python raises AttributeError during construction and radius is never
assigned. -/
def Exoplanet_init (rad a : ℚ) (rad_unit a_unit : String) : Except PyExc Exoplanet :=
  match
    (if rad_unit = "R_J" then Except.ok (some (rad * R_jup_m))
     else if rad_unit = "R_earth" then Except.ok (some (rad * R_earth_m))
     else if rad_unit = "m" then (Except.error PyExc.attributeError : Except PyExc (Option ℚ))
     else Except.error PyExc.valueError) with
  | Except.error e => Except.error e
  | Except.ok r =>
    if a_unit = "AU" then Except.ok { radius := r, a := some (a * au_m) }
    else if a_unit = "m" then Except.ok { radius := r, a := some a }
    else Except.error PyExc.valueError

/-- Star.__init__ of src/lcEnhance/LCE.py line 316: radius = rad * u.R_sun,
canonicalized to meters. -/
def Star_radius (rad : ℚ) : ℚ := rad * R_sun_m

/-- Depth derivation of LightCurveExoplanet.__init__, src/lcEnhance/LCE.py
line 189: float(((planet.radius / star.radius).to(''))**2), with both radii
reduced to a common unit (meters). -/
def LCE_depth (planetRadius starRadius : ℚ) : ℚ :=
  (planetRadius / starRadius) ^ 2

/-- Modelled from the spec: depth = (orbiting_body.radius / host_body.radius)²,
a dimensionless float (spec section 4.1). -/
def depth_spec (r_orb r_host : ℚ) : ℚ :=
  (r_orb / r_host) ^ 2

/-- Duration derivation of LightCurveExoplanet.__init__, src/lcEnhance/LCE.py
line 190: float((star.radius/(planet.a * 2 * np.pi)).to('') * ticksinper). -/
noncomputable def LCE_dur (starRadius a : ℝ) (ticksinper : ℕ) : ℝ :=
  starRadius / (a * 2 * Real.pi) * (ticksinper : ℝ)

/-- Modelled from the spec: duration_fraction = host_body.radius /
(orbiting_body.orbital_distance * 2π), dimensionless (spec section 4.1). -/
noncomputable def duration_fraction_spec (r_host dist : ℝ) : ℝ :=
  r_host / (dist * (2 * Real.pi))

/-- Concrete Policy A state used to instantiate the placement theorem:
ticksinper = 100, one period, duration 20 samples, slopelength 2,
depth 1/10, flat unit working signal. -/
def aState : LCTState :=
  { ticksinper := 100, length := 100, depth := 1/10, duration := 20,
    noise := 0, location := 0, fluxOG := constArr 100 2,
    flux := constArr 100 1, per := 0, numper := 1,
    slopelength := 2, lb := 0, ub := 0 }

/-- Concrete Policy B state with a window wrapping past the start:
location 5, duration 20, so lowerbound = int(5 - 10) = -5 < 0. -/
def bState : LCMState :=
  { ticksinper := 100, length := 100, depth := 1/10, duration := 20,
    noise := 0, location := 5, flux := constArr 100 1, per := 0,
    numper := 1, lb := 0, ub := 0, overflow_flag := none }

/-- Concrete Policy A state violating the claimed strict bound ordering:
ticksinper = 101 (odd) and duration = 1/5 of a sample, so both bounds
truncate to 50. -/
def cState : LCTState :=
  { ticksinper := 101, length := 101, depth := 1/10, duration := 1/5,
    noise := 0, location := 0, fluxOG := constArr 101 2,
    flux := constArr 101 1, per := 0, numper := 1,
    slopelength := 0, lb := 0, ub := 0 }

/-- Concrete Policy A state for the amended bounds invariant, exercising a
later period: ticksinper = 100, numper = 2, per = 1, duration 20. -/
def dState : LCTState :=
  { ticksinper := 100, length := 200, depth := 1/10, duration := 20,
    noise := 0, location := 0, fluxOG := constArr 200 2,
    flux := constArr 200 1, per := 1, numper := 2,
    slopelength := 2, lb := 0, ub := 0 }

/-! ## Basic lemmas about the array model -/

theorem sliceSub_len (a : NpArr) (lo hi : ℤ) (d : ℚ) :
    (sliceSub a lo hi d).len = a.len := rfl

theorem pyIdx_of_nonneg (len : ℕ) (j : ℤ) (h : 0 ≤ j) : pyIdx len j = j :=
  if_neg (by omega)

theorem pySet_len (a : NpArr) (j : ℤ) (v : ℚ) : (pySet a j v).len = a.len := by
  unfold pySet
  split
  · rfl
  · rfl

theorem applyRamp_len (a : NpArr) (f : ℕ → ℤ) (g : ℕ → ℚ) (m : ℕ) :
    (applyRamp a f g m).len = a.len := by
  induction m with
  | zero => rfl
  | succ m ih => rw [applyRamp, pySet_len, ih]

theorem rampDown_len (a : NpArr) (lb sl : ℤ) (d : ℚ) :
    (rampDown a lb sl d).len = a.len := applyRamp_len _ _ _ _

theorem rampUp_len (a : NpArr) (ub sl : ℤ) (d : ℚ) :
    (rampUp a ub sl d).len = a.len := applyRamp_len _ _ _ _

theorem pySet_val_ne (a : NpArr) (j : ℤ) (v : ℚ) (i : ℕ)
    (h : pyIdx a.len j ≠ (i : ℤ)) :
    (pySet a j v).val i = a.val i := by
  unfold pySet
  split
  · show (if (i : ℤ) = pyIdx a.len j then v else a.val i) = a.val i
    rw [if_neg (Ne.symm h)]
  · rfl

theorem pySet_val_eq (a : NpArr) (j : ℤ) (v : ℚ) (i : ℕ)
    (h0 : 0 ≤ pyIdx a.len j) (h1 : pyIdx a.len j < (a.len : ℤ))
    (he : pyIdx a.len j = (i : ℤ)) :
    (pySet a j v).val i = v := by
  unfold pySet
  rw [if_pos ⟨h0, h1⟩]
  show (if (i : ℤ) = pyIdx a.len j then v else a.val i) = v
  rw [if_pos (Eq.symm he)]

theorem applyRamp_val_ne (a : NpArr) (f : ℕ → ℤ) (g : ℕ → ℚ) (m : ℕ) (i : ℕ)
    (h : ∀ k, k < m → pyIdx a.len (f k) ≠ (i : ℤ)) :
    (applyRamp a f g m).val i = a.val i := by
  induction m with
  | zero => rfl
  | succ m ih =>
      rw [applyRamp, pySet_val_ne, ih (fun k hk => h k (by omega))]
      rw [applyRamp_len]
      exact h m (by omega)

theorem applyRamp_val_hit (a : NpArr) (f : ℕ → ℤ) (g : ℕ → ℚ) (m : ℕ) (i k0 : ℕ)
    (hk0 : k0 < m) (he : pyIdx a.len (f k0) = (i : ℤ))
    (h0 : 0 ≤ pyIdx a.len (f k0)) (h1 : pyIdx a.len (f k0) < (a.len : ℤ))
    (hne : ∀ k, k0 < k → k < m → pyIdx a.len (f k) ≠ (i : ℤ)) :
    (applyRamp a f g m).val i = g k0 := by
  induction m with
  | zero => omega
  | succ m ih =>
      rw [applyRamp]
      by_cases hk : k0 = m
      · subst hk
        apply pySet_val_eq
        · rw [applyRamp_len]; exact h0
        · rw [applyRamp_len]; exact h1
        · rw [applyRamp_len]; exact he
      · rw [pySet_val_ne, ih (by omega) (fun k ha hb => hne k ha (by omega))]
        rw [applyRamp_len]
        exact hne m (by omega) (by omega)

theorem sliceSub_val_in (a : NpArr) (lo hi : ℤ) (d : ℚ) (i : ℕ)
    (h1 : hi ≤ (a.len : ℤ)) (hlo : lo ≤ (i : ℤ)) (hhi : (i : ℤ) < hi) (h0 : 0 ≤ lo) :
    (sliceSub a lo hi d).val i = a.val i - d := by
  have hx : ¬ lo < 0 := by omega
  have hy : ¬ hi < 0 := by omega
  simp only [sliceSub, if_neg hx, if_neg hy]
  rw [min_eq_left (by omega : lo ≤ (a.len : ℤ)), min_eq_left h1, if_pos ⟨hlo, hhi⟩]

theorem sliceSub_val_out (a : NpArr) (lo hi : ℤ) (d : ℚ) (i : ℕ)
    (h0 : 0 ≤ lo) (h00 : 0 ≤ hi) (h1 : hi ≤ (a.len : ℤ)) (h2 : lo ≤ (a.len : ℤ))
    (hout : (i : ℤ) < lo ∨ hi ≤ (i : ℤ)) :
    (sliceSub a lo hi d).val i = a.val i := by
  have hx : ¬ lo < 0 := by omega
  have hy : ¬ hi < 0 := by omega
  simp only [sliceSub, if_neg hx, if_neg hy]
  rw [min_eq_left h2, min_eq_left h1, if_neg (by omega)]

theorem pyInt_of_nonneg (q : ℚ) (h : 0 ≤ q) : pyInt q = ⌊q⌋ := if_pos h

theorem pyInt_of_neg (q : ℚ) (h : q < 0) : pyInt q = -⌊-q⌋ := by
  unfold pyInt
  rw [if_neg (not_le.mpr h)]
  conv_lhs => rw [← neg_neg q]
  rw [Int.ceil_neg]

theorem pyInt_mono (x y : ℚ) (h : x ≤ y) : pyInt x ≤ pyInt y := by
  rcases le_or_lt 0 x with h1 | h1
  · rw [pyInt_of_nonneg x h1, pyInt_of_nonneg y (h1.trans h)]
    exact Int.floor_mono h
  · rcases le_or_lt 0 y with h2 | h2
    · rw [pyInt_of_nonneg y h2]
      unfold pyInt
      rw [if_neg (not_le.mpr h1)]
      exact le_trans (Int.ceil_le.mpr (by exact_mod_cast h1.le))
        (Int.floor_nonneg.mpr h2)
    · unfold pyInt
      rw [if_neg (not_le.mpr h1), if_neg (not_le.mpr h2)]
      exact Int.ceil_mono h

/-! ## Evaluation of the bound computations on the concrete states -/

theorem lbB_bState : lbB bState = -5 := by
  unfold lbB
  rw [show ((bState.location : ℚ) - bState.duration / 2) = -5 from by norm_num [bState]]
  rw [pyInt_of_neg _ (by norm_num)]
  norm_num

theorem ubB_bState : ubB bState = 15 := by
  unfold ubB
  rw [show ((bState.location : ℚ) + bState.duration / 2) = 15 from by norm_num [bState]]
  rw [pyInt_of_nonneg _ (by norm_num)]
  norm_num

theorem lbA_aState : lbA aState = 40 := by
  unfold lbA
  rw [show ((aState.ticksinper : ℚ) / 2 * (1 + 2 * (aState.per : ℚ))
        - aState.duration / 2) = 40 from by norm_num [aState]]
  rw [pyInt_of_nonneg _ (by norm_num)]
  norm_num

theorem ubA_aState : ubA aState = 60 := by
  unfold ubA
  rw [show ((aState.ticksinper : ℚ) / 2 * (1 + 2 * (aState.per : ℚ))
        + aState.duration / 2) = 60 from by norm_num [aState]]
  rw [pyInt_of_nonneg _ (by norm_num)]
  norm_num

theorem lbA_cState : lbA cState = 50 := by
  unfold lbA
  rw [show ((cState.ticksinper : ℚ) / 2 * (1 + 2 * (cState.per : ℚ))
        - cState.duration / 2) = 252 / 5 from by norm_num [cState]]
  rw [pyInt_of_nonneg _ (by norm_num)]
  norm_num

theorem ubA_cState : ubA cState = 50 := by
  unfold ubA
  rw [show ((cState.ticksinper : ℚ) / 2 * (1 + 2 * (cState.per : ℚ))
        + cState.duration / 2) = 253 / 5 from by norm_num [cState]]
  rw [pyInt_of_nonneg _ (by norm_num)]
  norm_num

/-! ## Frame lemmas for Policy A rendering passes -/

theorem foldl_stepA_fluxOG (eps : ℕ → ℚ) (l : List ℕ) (s : LCTState) :
    (l.foldl (fun st k => stepA st (eps k)) s).fluxOG = s.fluxOG := by
  induction l generalizing s with
  | nil => rfl
  | cons x xs ih =>
      rw [List.foldl_cons, ih]
      rfl

theorem plot_transitA_fluxOG (s : LCTState) (eps : ℕ → ℚ) :
    (plot_transitA s eps).fluxOG = s.fluxOG := by
  show ((List.range s.numper).foldl (fun st k => stepA st (eps k))
      { s with flux := { len := s.fluxOG.len, val := fun i => s.fluxOG.val i - 1 },
               per := 0 }).fluxOG = s.fluxOG
  rw [foldl_stepA_fluxOG]

/-! ## Claim theorems -/

/-- C9: no rendering pass of Policy A modifies the stored baseline fluxOG
(even after arbitrarily many passes it equals the one from construction),
and a pass recomputes the working signal afresh from the retained
baseline: its output flux is independent of the working signal left by
earlier passes. -/
theorem policyA_baseline_immutable (s : LCTState) (E : ℕ → ℕ → ℚ) (n : ℕ)
    (f : NpArr) (eps : ℕ → ℚ) :
    (plot_transitA s eps).fluxOG = s.fluxOG ∧
    (iterA E n s).fluxOG = s.fluxOG ∧
    (plot_transitA { s with flux := f } eps).flux = (plot_transitA s eps).flux := by
  refine ⟨plot_transitA_fluxOG s eps, ?_, rfl⟩
  induction n with
  | zero => rfl
  | succ n ih => rw [iterA, plot_transitA_fluxOG, ih]

/-- C3: the depth derived by LightCurveExoplanet.__init__ equals the
squared radius ratio of the bodies, and lies strictly between 0 and 1
whenever both radii are positive and the orbiting radius is smaller than
the host radius. -/
theorem depth_derivation (rp rs : ℚ) (h1 : 0 < rp) (h2 : rp < rs) :
    LCE_depth rp rs = depth_spec rp rs ∧
    0 < LCE_depth rp rs ∧ LCE_depth rp rs < 1 := by
  have hs : 0 < rs := h1.trans h2
  have hpos : 0 < rp / rs := div_pos h1 hs
  refine ⟨rfl, pow_pos hpos 2, ?_⟩
  show (rp / rs) ^ 2 < 1
  exact pow_lt_one₀ hpos.le ((div_lt_one hs).mpr h2) (by norm_num)

theorem depth_derivation_witness :
    LCE_depth 1 2 = depth_spec 1 2 ∧ 0 < LCE_depth 1 2 ∧ LCE_depth 1 2 < 1 :=
  depth_derivation 1 2 (by norm_num) (by norm_num)

/-- C4: the duration in samples derived by LightCurveExoplanet.__init__
equals the spec's dimensionless duration fraction
host_radius / (orbital_distance * 2 pi) scaled by the samples-per-period
count. -/
theorem duration_derivation (rs a : ℝ) (t : ℕ) :
    LCE_dur rs a t = duration_fraction_spec rs a * (t : ℝ) := by
  unfold LCE_dur duration_fraction_spec
  rw [mul_assoc]

/-- C7 counterexample: in the LCE.py variant the stored baseline is
np.ones + noise + 1, so with a zero noise draw a baseline sample equals 2,
not the claimed 1.0 + draw = 1. -/
theorem baseline_offset_cex :
    (fluxOG_LCT 1 (fun _ => 0)).val 0 = 2 ∧
    (fluxOG_LCT 1 (fun _ => 0)).val 0 ≠ 1 + 0 := by
  constructor
  · show (1 : ℚ) + 0 + 1 = 2
    norm_num
  · show (1 : ℚ) + 0 + 1 ≠ 1 + 0
    norm_num

/-- C7 amended: each element of the LightCurveMultiple baseline equals
1.0 plus its Gaussian draw, while the LCE.py variants store
1.0 + draw + 1.0; with noise_sigma = 0 (all draws zero) every sample
equals the variant's fixed offset (1 resp. 2) exactly, and each baseline
has the configured length. -/
theorem baseline_offsets (length : ℕ) (eps : ℕ → ℚ) (i : ℕ) :
    (flux_LCM length eps).len = length ∧
    (flux_LCM length eps).val i = 1 + eps i ∧
    (fluxOG_LCT length eps).len = length ∧
    (fluxOG_LCT length eps).val i = (1 + eps i) + 1 ∧
    (flux_LCM length (fun _ => 0)).val i = 1 ∧
    (fluxOG_LCT length (fun _ => 0)).val i = 2 := by
  refine ⟨rfl, rfl, rfl, rfl, ?_, ?_⟩
  · show (1 : ℚ) + 0 = 1
    norm_num
  · show (1 : ℚ) + 0 + 1 = 2
    norm_num

/-- C6: in LightCurveMultiple.plot_transit the wrap-past-the-start branch
binds a local variable instead of assigning self.overflow_flag, so on a
fresh object the flag is still unset after the call (the claim requires
it to be observably true); the near-duplicate
LightCurveTheoretical.plot_transit of src/lcEnhance/lightcurveenhanced.py
sets it to True on the same input, showing the intended behavior. -/
theorem overflow_flag_bug :
    lbB bState < 0 ∧
    (plot_transitB bState).overflow_flag = none ∧
    (plot_transitB2 bState).overflow_flag = some true := by
  have h : lbB bState < 0 := by
    rw [lbB_bState]
    norm_num
  refine ⟨h, ?_, ?_⟩
  · simp only [plot_transitB]
    rw [if_pos h]
    rfl
  · simp only [plot_transitB2]
    rw [if_pos h]

/-- C10 counterexample: constructing an Exoplanet with the recognized
radius unit string m does NOT complete without error: line 293 of LCE.py
is an equality comparison that reads the never-assigned radius attribute,
so construction itself raises AttributeError. -/
theorem exoplanet_m_cex :
    Exoplanet_init 1 1 "m" "AU" = Except.error PyExc.attributeError := by rfl

/-- C10 amended: for every input, constructing an Exoplanet with radius
unit m raises AttributeError at construction time (the branch compares
with == instead of assigning, and evaluating the comparison reads the
not-yet-assigned radius attribute); the radius attribute is never
assigned in that branch. -/
theorem exoplanet_m_raises (rad a : ℚ) (a_unit : String) :
    Exoplanet_init rad a "m" a_unit = Except.error PyExc.attributeError := by rfl

/-- C1: Policy A placement: the loop body of plot_transit stores
lb = int(ticksinper/2 * (1 + 2 per) - duration/2) and
ub = int(ticksinper/2 * (1 + 2 per) + duration/2) (both truncated to
integers), and subtracts depth from every sample of the working signal in
the half-open range [lb, ub), for any period state whose window and ramps
stay inside the buffer. -/
theorem policyA_placement (s : LCTState) (eps : ℚ) (i : ℕ)
    (h0 : 0 ≤ lbA s) (hsl : s.slopelength ≤ lbA s)
    (hub : ubA s ≤ (s.flux.len : ℤ)) (hd : 0 ≤ s.duration)
    (hlo : lbA s ≤ (i : ℤ)) (hhi : (i : ℤ) < ubA s) :
    (stepA s eps).lb
        = pyInt ((s.ticksinper : ℚ) / 2 * (1 + 2 * (s.per : ℚ)) - s.duration / 2) ∧
    (stepA s eps).ub
        = pyInt ((s.ticksinper : ℚ) / 2 * (1 + 2 * (s.per : ℚ)) + s.duration / 2) ∧
    (stepA s eps).flux.val i = s.flux.val i - s.depth := by
  have hmono : lbA s ≤ ubA s := by
    unfold lbA ubA
    exact pyInt_mono _ _ (by linarith)
  refine ⟨rfl, rfl, ?_⟩
  show (rampUp (rampDown (sliceSub s.flux (lbA s) (ubA s) s.depth)
      (lbA s) s.slopelength s.depth) (ubA s) s.slopelength s.depth).val i
      = s.flux.val i - s.depth
  have e1 : (rampUp (rampDown (sliceSub s.flux (lbA s) (ubA s) s.depth)
      (lbA s) s.slopelength s.depth) (ubA s) s.slopelength s.depth).val i
      = (rampDown (sliceSub s.flux (lbA s) (ubA s) s.depth)
          (lbA s) s.slopelength s.depth).val i := by
    unfold rampUp
    apply applyRamp_val_ne
    intro k hk
    rw [pyIdx_of_nonneg _ _ (by omega)]
    omega
  have e2 : (rampDown (sliceSub s.flux (lbA s) (ubA s) s.depth)
      (lbA s) s.slopelength s.depth).val i
      = (sliceSub s.flux (lbA s) (ubA s) s.depth).val i := by
    unfold rampDown
    apply applyRamp_val_ne
    intro k hk
    rw [pyIdx_of_nonneg _ _ (by omega)]
    omega
  rw [e1, e2]
  exact sliceSub_val_in _ _ _ _ _ hub hlo hhi h0

theorem policyA_placement_witness :
    (stepA aState 0).lb
        = pyInt ((aState.ticksinper : ℚ) / 2 * (1 + 2 * (aState.per : ℚ))
            - aState.duration / 2) ∧
    (stepA aState 0).ub
        = pyInt ((aState.ticksinper : ℚ) / 2 * (1 + 2 * (aState.per : ℚ))
            + aState.duration / 2) ∧
    (stepA aState 0).flux.val 40 = aState.flux.val 40 - aState.depth :=
  policyA_placement aState 0 40
    (by rw [lbA_aState]; norm_num)
    (by rw [lbA_aState]; norm_num [aState])
    (by rw [ubA_aState]; norm_num [aState, constArr])
    (by norm_num [aState])
    (by rw [lbA_aState]; norm_num)
    (by rw [ubA_aState]; norm_num)

/-- C5: Policy A ramp: the slope length computed at construction equals
floor(duration/10); for each of the slopelength offsets k immediately
before lb the loop sets the sample at lb - slopelength + k to
1 - (k/slopelength) * depth (the fractional position running linearly
from 0 towards 1 across the ramp), and symmetrically the sample at
ub + k is set to 1 + ((k - slopelength)/slopelength) * depth. -/
theorem policyA_ramp (s : LCTState) (eps : ℚ) (k : ℕ)
    (hd : 0 ≤ s.duration) (hsl0 : 0 ≤ s.slopelength)
    (hpre : s.slopelength ≤ lbA s)
    (hup : ubA s + s.slopelength ≤ (s.flux.len : ℤ))
    (hk : (k : ℤ) < s.slopelength)
    (t : ℕ) (dep dur noi : ℚ) (np : ℕ) (rD : ℚ) (rI : ℤ) (rL : ℕ) (e0 : ℕ → ℚ)
    (hdur : 0 ≤ (LCT_init t dep dur noi np rD rI rL e0).duration) :
    (LCT_init t dep dur noi np rD rI rL e0).slopelength
        = ⌊(LCT_init t dep dur noi np rD rI rL e0).duration / 10⌋ ∧
    (stepA s eps).flux.val (lbA s - s.slopelength + (k : ℤ)).toNat
        = 1 - (k : ℚ) / (s.slopelength : ℚ) * s.depth ∧
    (stepA s eps).flux.val ((ubA s).toNat + k)
        = 1 + ((k : ℚ) - (s.slopelength : ℚ)) / (s.slopelength : ℚ) * s.depth := by
  have hmono : lbA s ≤ ubA s := by
    unfold lbA ubA
    exact pyInt_mono _ _ (by linarith)
  have hub0 : 0 ≤ ubA s := le_trans (le_trans hsl0 hpre) hmono
  refine ⟨?_, ?_, ?_⟩
  · show pyInt ((LCT_init t dep dur noi np rD rI rL e0).duration / 10)
        = ⌊(LCT_init t dep dur noi np rD rI rL e0).duration / 10⌋
    exact pyInt_of_nonneg _ (div_nonneg hdur (by norm_num))
  · show (rampUp (rampDown (sliceSub s.flux (lbA s) (ubA s) s.depth)
        (lbA s) s.slopelength s.depth) (ubA s) s.slopelength s.depth).val
          (lbA s - s.slopelength + (k : ℤ)).toNat
        = 1 - (k : ℚ) / (s.slopelength : ℚ) * s.depth
    have e1 : (rampUp (rampDown (sliceSub s.flux (lbA s) (ubA s) s.depth)
        (lbA s) s.slopelength s.depth) (ubA s) s.slopelength s.depth).val
          (lbA s - s.slopelength + (k : ℤ)).toNat
        = (rampDown (sliceSub s.flux (lbA s) (ubA s) s.depth)
            (lbA s) s.slopelength s.depth).val
          (lbA s - s.slopelength + (k : ℤ)).toNat := by
      unfold rampUp
      apply applyRamp_val_ne
      intro k2 hk2
      rw [pyIdx_of_nonneg _ _ (by omega)]
      omega
    rw [e1]
    unfold rampDown
    apply applyRamp_val_hit _ _ _ _ _ k (by omega)
    · rw [pyIdx_of_nonneg _ _ (by omega)]
      omega
    · rw [pyIdx_of_nonneg _ _ (by omega)]
      omega
    · rw [pyIdx_of_nonneg _ _ (by omega), sliceSub_len]
      omega
    · intro k2 ha hb
      rw [pyIdx_of_nonneg _ _ (by omega)]
      omega
  · show (rampUp (rampDown (sliceSub s.flux (lbA s) (ubA s) s.depth)
        (lbA s) s.slopelength s.depth) (ubA s) s.slopelength s.depth).val
          ((ubA s).toNat + k)
        = 1 + ((k : ℚ) - (s.slopelength : ℚ)) / (s.slopelength : ℚ) * s.depth
    unfold rampUp
    apply applyRamp_val_hit _ _ _ _ _ k (by omega)
    · rw [pyIdx_of_nonneg _ _ (by omega)]
      omega
    · rw [pyIdx_of_nonneg _ _ (by omega)]
      omega
    · rw [pyIdx_of_nonneg _ _ (by omega), rampDown_len, sliceSub_len]
      omega
    · intro k2 ha hb
      rw [pyIdx_of_nonneg _ _ (by omega)]
      omega

theorem policyA_ramp_witness :
    (LCT_init 100 (1/10) (1/5) 0 1 0 0 0 (fun _ => 0)).slopelength
        = ⌊(LCT_init 100 (1/10) (1/5) 0 1 0 0 0 (fun _ => 0)).duration / 10⌋ ∧
    (stepA aState 0).flux.val (lbA aState - aState.slopelength + ((1 : ℕ) : ℤ)).toNat
        = 1 - ((1 : ℕ) : ℚ) / (aState.slopelength : ℚ) * aState.depth ∧
    (stepA aState 0).flux.val ((ubA aState).toNat + 1)
        = 1 + (((1 : ℕ) : ℚ) - (aState.slopelength : ℚ)) / (aState.slopelength : ℚ)
            * aState.depth :=
  policyA_ramp aState 0 1
    (by norm_num [aState])
    (by norm_num [aState])
    (by rw [lbA_aState]; norm_num [aState])
    (by rw [ubA_aState]; norm_num [aState, constArr])
    (by norm_num [aState])
    100 (1/10) (1/5) 0 1 0 0 0 (fun _ => 0)
    (by norm_num [LCT_init])

/-- C8 counterexample: with samples_per_period = 101 (odd) and a positive
duration of 1/5 of a sample (duration < samples_per_period holds), both
truncated bounds equal 50, so lower_bound < upper_bound fails. -/
theorem policyA_bounds_cex :
    0 < cState.duration ∧ cState.duration < (cState.ticksinper : ℚ) ∧
    cState.per < cState.numper ∧ ¬ (lbA cState < ubA cState) := by
  refine ⟨by norm_num [cState], by norm_num [cState], by norm_num [cState], ?_⟩
  rw [lbA_cState, ubA_cState]
  omega

/-- C8 amended: whenever additionally duration_samples is at least one
sample (1 ≤ duration, together with duration < samples_per_period and a
period index below period_count), the Policy A bounds satisfy
0 ≤ lower_bound < upper_bound ≤ total_samples. -/
theorem policyA_bounds (s : LCTState)
    (h1 : 1 ≤ s.duration) (h2 : s.duration < (s.ticksinper : ℚ))
    (h3 : s.per < s.numper) (hlen : s.length = s.ticksinper * s.numper) :
    0 ≤ lbA s ∧ lbA s < ubA s ∧ ubA s ≤ (s.length : ℤ) := by
  have hp0 : (0 : ℚ) ≤ (s.per : ℚ) := Nat.cast_nonneg _
  have ht0 : (0 : ℚ) < (s.ticksinper : ℚ) := lt_trans (lt_of_lt_of_le zero_lt_one h1) h2
  have htp : (0 : ℚ) ≤ (s.ticksinper : ℚ) * (s.per : ℚ) := mul_nonneg ht0.le hp0
  have hexp : (s.ticksinper : ℚ) / 2 * (1 + 2 * (s.per : ℚ))
      = (s.ticksinper : ℚ) / 2 + (s.ticksinper : ℚ) * (s.per : ℚ) := by ring
  have harg1 : (0 : ℚ) ≤ (s.ticksinper : ℚ) / 2 * (1 + 2 * (s.per : ℚ))
      - s.duration / 2 := by
    rw [hexp]
    linarith
  have harg2 : (0 : ℚ) ≤ (s.ticksinper : ℚ) / 2 * (1 + 2 * (s.per : ℚ))
      + s.duration / 2 := by
    rw [hexp]
    linarith
  have hlb : lbA s
      = ⌊(s.ticksinper : ℚ) / 2 * (1 + 2 * (s.per : ℚ)) - s.duration / 2⌋ := by
    unfold lbA
    exact pyInt_of_nonneg _ harg1
  have hubq : ubA s
      = ⌊(s.ticksinper : ℚ) / 2 * (1 + 2 * (s.per : ℚ)) + s.duration / 2⌋ := by
    unfold ubA
    exact pyInt_of_nonneg _ harg2
  refine ⟨?_, ?_, ?_⟩
  · rw [hlb]
    exact Int.floor_nonneg.mpr harg1
  · rw [hlb, hubq]
    have key : (s.ticksinper : ℚ) / 2 * (1 + 2 * (s.per : ℚ)) - s.duration / 2 + 1
        ≤ (s.ticksinper : ℚ) / 2 * (1 + 2 * (s.per : ℚ)) + s.duration / 2 := by
      linarith
    have h4 : ⌊(s.ticksinper : ℚ) / 2 * (1 + 2 * (s.per : ℚ)) - s.duration / 2⌋ + 1
        ≤ ⌊(s.ticksinper : ℚ) / 2 * (1 + 2 * (s.per : ℚ)) + s.duration / 2⌋ := by
      rw [← Int.floor_add_one]
      exact Int.floor_mono key
    omega
  · rw [hubq, hlen]
    have hples : (s.per : ℚ) + 1 ≤ (s.numper : ℚ) := by exact_mod_cast h3
    have hmul : (s.ticksinper : ℚ) * (s.per : ℚ)
        ≤ (s.ticksinper : ℚ) * ((s.numper : ℚ) - 1) :=
      mul_le_mul_of_nonneg_left (by linarith) ht0.le
    have hmexp : (s.ticksinper : ℚ) * ((s.numper : ℚ) - 1)
        = (s.ticksinper : ℚ) * (s.numper : ℚ) - (s.ticksinper : ℚ) := by ring
    have hq : (s.ticksinper : ℚ) / 2 * (1 + 2 * (s.per : ℚ)) + s.duration / 2
        < (((s.ticksinper * s.numper : ℕ) : ℤ) : ℚ) := by
      push_cast
      rw [hexp]
      linarith
    have h5 := Int.floor_lt.mpr hq
    omega

theorem policyA_bounds_witness :
    0 ≤ lbA dState ∧ lbA dState < ubA dState ∧ ubA dState ≤ (dState.length : ℤ) :=
  policyA_bounds dState (by norm_num [dState]) (by norm_num [dState])
    (by norm_num [dState]) (by norm_num [dState])

/-- C2: Policy B wraparound coverage: when the computed lower bound is
negative, the wrap branch subtracts depth exactly on the two sub-ranges
[0, upperbound) and [total + lowerbound, total) of the signal, leaving
all other samples unchanged, and the total number of samples in the two
sub-ranges equals upperbound - lowerbound, the width of a non-wrapped
window of the same duration. -/
theorem policyB_wrap_cover (s : LCMState)
    (hlen : s.flux.len = s.length)
    (hloc : 0 ≤ s.location) (hdur : 0 ≤ s.duration)
    (hdlen : s.duration ≤ (s.length : ℚ))
    (hlb : lbB s < 0) :
    (∀ i : ℕ, i < s.length →
       (((i : ℤ) < ubB s ∨ (s.length : ℤ) + lbB s ≤ (i : ℤ)) →
          (plot_transitB s).flux.val i = s.flux.val i - s.depth) ∧
       ((ubB s ≤ (i : ℤ) ∧ (i : ℤ) < (s.length : ℤ) + lbB s) →
          (plot_transitB s).flux.val i = s.flux.val i)) ∧
    (Finset.range (ubB s).toNat).card
        + (Finset.Ico ((s.length : ℤ) + lbB s).toNat s.length).card
      = (ubB s - lbB s).toNat := by
  have hloc2 : (0 : ℚ) ≤ (s.location : ℚ) := by exact_mod_cast hloc
  have harg1 : (0 : ℚ) ≤ (s.location : ℚ) + s.duration / 2 := by linarith
  have hub_eq : ubB s = ⌊(s.location : ℚ) + s.duration / 2⌋ := by
    unfold ubB
    exact pyInt_of_nonneg _ harg1
  have hub0 : 0 ≤ ubB s := by
    rw [hub_eq]
    exact Int.floor_nonneg.mpr harg1
  have hspan : ubB s - lbB s ≤ (s.length : ℤ) := by
    have harg2 : (s.location : ℚ) - s.duration / 2 < 0 := by
      by_contra hc
      push_neg at hc
      have he : lbB s = ⌊(s.location : ℚ) - s.duration / 2⌋ := by
        unfold lbB
        exact pyInt_of_nonneg _ hc
      have : 0 ≤ lbB s := by
        rw [he]
        exact Int.floor_nonneg.mpr hc
      omega
    have hlb_eq : lbB s = ⌈(s.location : ℚ) - s.duration / 2⌉ := by
      unfold lbB pyInt
      rw [if_neg (not_le.mpr harg2)]
    have hu : ((ubB s : ℤ) : ℚ) ≤ (s.location : ℚ) + s.duration / 2 := by
      rw [hub_eq]
      exact Int.floor_le _
    have hl : (s.location : ℚ) - s.duration / 2 ≤ ((lbB s : ℤ) : ℚ) := by
      rw [hlb_eq]
      exact Int.le_ceil _
    have hq : ((ubB s : ℤ) : ℚ) - ((lbB s : ℤ) : ℚ) ≤ (s.length : ℚ) := by linarith
    exact_mod_cast hq
  have hm0 : 0 ≤ (s.length : ℤ) + lbB s := by omega
  have hL0 : ((s.flux.len : ℕ) : ℤ) = (s.length : ℤ) := by
    rw [hlen]
  have hL1 : (((sliceSub s.flux 0 (ubB s) s.depth).len : ℕ) : ℤ) = (s.length : ℤ) := by
    rw [sliceSub_len, hlen]
  have hfx : (plot_transitB s).flux
      = sliceSub (sliceSub s.flux 0 (ubB s) s.depth)
          ((s.length : ℤ) + lbB s) (s.length : ℤ) s.depth := by
    simp only [plot_transitB]
    rw [if_pos hlb]
  constructor
  · intro i hi
    have hiz : (i : ℤ) < (s.length : ℤ) := by exact_mod_cast hi
    constructor
    · rintro (hc | hc)
      · rw [hfx,
          sliceSub_val_out _ _ _ _ _ hm0 (by omega) (by omega) (by omega)
            (Or.inl (by omega))]
        exact sliceSub_val_in _ _ _ _ _ (by omega) (by omega) (by omega) le_rfl
      · rw [hfx,
          sliceSub_val_in _ _ _ _ _ (by omega) hc hiz hm0,
          sliceSub_val_out _ _ _ _ _ le_rfl hub0 (by omega) (by omega)
            (Or.inr (by omega))]
    · rintro ⟨hc1, hc2⟩
      rw [hfx,
        sliceSub_val_out _ _ _ _ _ hm0 (by omega) (by omega) (by omega)
          (Or.inl (by omega)),
        sliceSub_val_out _ _ _ _ _ le_rfl hub0 (by omega) (by omega)
          (Or.inr (by omega))]
  · rw [Finset.card_range, Nat.card_Ico]
    omega

theorem policyB_wrap_cover_witness :
    (plot_transitB bState).flux.val 0 = bState.flux.val 0 - bState.depth :=
  ((policyB_wrap_cover bState rfl (by norm_num [bState]) (by norm_num [bState])
      (by norm_num [bState]) (by rw [lbB_bState]; norm_num)).1 0
      (by norm_num [bState])).1
    (Or.inl (by rw [ubB_bState]; norm_num))
